import Mathlib

/-!
Verification of the Reaction order-transform helpers and of the product-grid
item controls component. JavaScript numbers are modelled as rationals; the
relevant JavaScript value space (undefined, null, numbers, NaN, strings,
objects, arrays) is embedded as an inductive type, and the dynamic field
traversal of `getSummary` is modelled with an explicit exception type
mirroring the try/catch of the source.
-/

namespace Reaction

/-! ### Fixed-point decimal strings

Model of `accounting.toFixed(value, 2)` and of the JavaScript `parseFloat`
builtin, restricted to the plain decimal strings that `toFixed` produces. -/

/-- Numeric value of a decimal digit character. -/
def digitVal (c : Char) : Nat := c.toNat - 48

/-- Value of a list of decimal digit characters, most significant first. -/
def parseNat (cs : List Char) : Nat := cs.foldl (fun a c => a * 10 + digitVal c) 0

/-- Decimal digit characters of a natural number, driven by a fuel argument
so that the recursion is structural. -/
def natDecimalAux : Nat → Nat → List Char
  | 0, _ => []
  | _ + 1, 0 => []
  | fuel + 1, n + 1 =>
    natDecimalAux fuel ((n + 1) / 10) ++ [Nat.digitChar ((n + 1) % 10)]

/-- Decimal string of a natural number, as produced by JavaScript number
printing for nonnegative integers. -/
def natDecimal (n : Nat) : String :=
  if n = 0 then "0" else String.mk (natDecimalAux n n)

/-- Two zero-padded decimal digits, the fractional part printed by
`toFixed(2)`. -/
def twoDigits (r : Nat) : String :=
  String.mk [Nat.digitChar (r / 10), Nat.digitChar (r % 10)]

/-- Fixed-point rendering of an integer number of cents, mirroring what
JavaScript `Number.prototype.toFixed(2)` prints for an exact two-decimal
value. -/
def formatFixed2 (n : Int) : String :=
  (if n < 0 then "-" else "") ++ natDecimal (n.natAbs / 100) ++ "." ++
    twoDigits (n.natAbs % 100)

/-- Rounding used by accounting.toFixed: JavaScript `Math.round`, which sends
halves toward positive infinity. -/
def jsRound (q : ℚ) : Int := ⌊q + 1 / 2⌋

/-- Model of `accounting.toFixed(value, 2)`: scale by 100, `Math.round`,
divide back and print with two decimals. -/
def toFixed2 (q : ℚ) : String := formatFixed2 (jsRound (q * 100))

/-- Value of digit characters before and after a decimal point. -/
def parseDecChars (cs : List Char) : ℚ :=
  let ip := cs.takeWhile Char.isDigit
  let rest := cs.dropWhile Char.isDigit
  match rest with
  | '.' :: rest2 =>
    let fp := rest2.takeWhile Char.isDigit
    (parseNat ip : ℚ) + (parseNat fp : ℚ) / (10 : ℚ) ^ fp.length
  | _ => (parseNat ip : ℚ)

/-- Model of the JavaScript `parseFloat` builtin, restricted to the plain
decimal strings (optional minus sign, digits, dot, digits) produced by
`formatFixed2`. -/
def parseFloat (s : String) : ℚ :=
  if s.data.head? = some '-' then -(parseDecChars s.data.tail)
  else parseDecChars s.data

/-! ### JavaScript values

Shallow embedding of the JavaScript values that can flow through the
order records. Numbers are rationals, with NaN kept as a separate
constructor; a thrown TypeError is modelled with `Except Unit`. -/

/-- JavaScript runtime values reachable in the order records. -/
inductive JSVal where
  | undefined : JSVal
  | vnull : JSVal
  | num : ℚ → JSVal
  | nan : JSVal
  | vstr : String → JSVal
  | obj : List (String × JSVal) → JSVal
  | arr : List JSVal → JSVal

/-- JavaScript ToNumber on our value space; `none` stands for NaN. Numeric
string literals and non-empty arrays are conservatively sent to NaN (they
never appear in numeric positions of the order records), the empty string
and the empty array convert to 0 as in JavaScript. -/
def jsToNumber : JSVal → Option ℚ
  | .undefined => none
  | .vnull => some 0
  | .num q => some q
  | .nan => none
  | .vstr s => if s = "" then some 0 else none
  | .obj _ => none
  | .arr l => match l with | [] => some 0 | _ => none

/-- String rendering used when `+` concatenates. Number printing is
abbreviated to the integer case (JavaScript doubles are already abstracted
to rationals); no order accessor reaches the other cases. -/
def jsValToStr : JSVal → String
  | .undefined => "undefined"
  | .vnull => "null"
  | .nan => "NaN"
  | .num q => if q.den = 1 then (if q.num < 0 then "-" else "") ++ natDecimal q.num.natAbs
              else "?"
  | .vstr s => s
  | .obj _ => "[object Object]"
  | .arr _ => "?"

/-- ToPrimitive for the `+` operator: plain objects become the string
rendering, other values are already primitive. -/
def jsToPrim : JSVal → JSVal
  | .obj _ => .vstr "[object Object]"
  | .arr l => .vstr (match l with | [] => "" | _ => "?")
  | v => v

/-- Whether a primitive is a string, deciding between concatenation and
numeric addition. -/
def jsIsStr : JSVal → Bool
  | .vstr _ => true
  | _ => false

/-- JavaScript binary `+`. -/
def jsAdd (a b : JSVal) : JSVal :=
  let pa := jsToPrim a
  let pb := jsToPrim b
  if jsIsStr pa || jsIsStr pb then .vstr (jsValToStr pa ++ jsValToStr pb)
  else
    match jsToNumber pa, jsToNumber pb with
    | some x, some y => .num (x + y)
    | _, _ => .nan

/-- JavaScript binary `*`. -/
def jsMul (a b : JSVal) : JSVal :=
  match jsToNumber a, jsToNumber b with
  | some x, some y => .num (x * y)
  | _, _ => .nan

/-- JavaScript truthiness of a value. -/
def jsTruthy : JSVal → Bool
  | .undefined => false
  | .vnull => false
  | .num q => q ≠ 0
  | .nan => false
  | .vstr s => s ≠ ""
  | .obj _ => true
  | .arr _ => true

/-- Strict equality of a string against an arbitrary value, as used by
`shopId === item.shopId`. -/
def jsStrictEqStr (s : String) (v : JSVal) : Bool :=
  match v with
  | .vstr t => s = t
  | _ => false

/-- Property access `v[k]`: throws a TypeError on undefined and null,
returns undefined for missing keys and for non-object primitives. -/
def getField (v : JSVal) (k : String) : Except Unit JSVal :=
  match v with
  | .undefined => .error ()
  | .vnull => .error ()
  | .obj fs => .ok ((fs.lookup k).getD .undefined)
  | _ => .ok .undefined

/-- Indexing into a path list, `prop[i]`; a missing index reads as the
property name "undefined" like `item[undefined]` would. -/
def propGet (l : List String) (i : Nat) : String := l.getD i "undefined"

/-- One- or two-level path resolution,
`p.length === 1 ? item[p[0]] : item[p[0]][p[1]]`. -/
def getPath2 (item : JSVal) (p : List String) : Except Unit JSVal :=
  if p.length = 1 then getField item (propGet p 0)
  else
    match getField item (propGet p 0) with
    | .error e => .error e
    | .ok m => getField m (propGet p 1)

/-! ### getSummary -/

/-- Body of the `reduce` callback inside `getSummary`, one item step. -/
def getSummaryStep (prop : List String) (prop2 : Option (List String))
    (shopId : Option String) (sum item : JSVal) : Except Unit JSVal :=
  match prop2 with
  | some p2 =>
    match shopId with
    | some sid =>
      match getField item "shopId" with
      | .error e => .error e
      | .ok sv =>
        if jsStrictEqStr sid sv then
          match getField item (propGet prop 0) with
          | .error e => .error e
          | .ok a =>
            match getPath2 item p2 with
            | .error e => .error e
            | .ok b => .ok (jsAdd sum (jsMul a b))
        else .ok sum
    | none =>
      match getField item (propGet prop 0) with
      | .error e => .error e
      | .ok a =>
        match getPath2 item p2 with
        | .error e => .error e
        | .ok b => .ok (jsAdd sum (jsMul a b))
  | none =>
    match getPath2 item prop with
    | .error e => .error e
    | .ok b => .ok (jsAdd sum b)

/-- The `reduce` of `getSummary`, aborting like a thrown exception would. -/
def getSummaryFold (prop : List String) (prop2 : Option (List String))
    (shopId : Option String) : JSVal → List JSVal → Except Unit JSVal
  | sum, [] => .ok sum
  | sum, item :: rest =>
    match getSummaryStep prop prop2 shopId sum item with
    | .error e => .error e
    | .ok s2 => getSummaryFold prop prop2 shopId s2 rest

/-- Model of `getSummary(items, prop, prop2, shopId)`: iterate over the
items when they form an array, catching any thrown traversal error and
degrading it, like the non-array case, to the number 0. -/
def getSummary (items : JSVal) (prop : List String) (prop2 : Option (List String))
    (shopId : Option String) : JSVal :=
  match items with
  | .arr l =>
    match getSummaryFold prop prop2 shopId (.num 0) l with
    | .ok v => v
    | .error _ => .num 0
  | _ => .num 0

/-- Whether a value is a JavaScript array, `Array.isArray`. -/
def isArr : JSVal → Bool
  | .arr _ => true
  | _ => false

/-! ### The order record

Typed shape of a well-formed order document, per the data model: line
items with `shopId`, `quantity` and `variants.price`; shipping entries
with `shipmentMethod.rate` and `shipmentMethod.handling`; billing entries
with `shopId` and `invoice.shipping` / `invoice.taxes`; an optional
effective tax rate and an optional discount. -/

structure Variants where
  price : ℚ

structure Item where
  shopId : String
  quantity : ℚ
  variants : Variants

structure ShipmentMethod where
  rate : ℚ
  handling : ℚ

structure ShippingEntry where
  shipmentMethod : ShipmentMethod

structure Invoice where
  shipping : ℚ
  taxes : ℚ

structure BillingEntry where
  shopId : String
  invoice : Invoice

structure Order where
  items : List Item
  shipping : List ShippingEntry
  billing : List BillingEntry
  tax : Option ℚ
  discount : Option ℚ

/-- JavaScript view of a line item, with exactly the fields the transform
reads. -/
def encodeItem (it : Item) : JSVal :=
  .obj [("shopId", .vstr it.shopId), ("quantity", .num it.quantity),
    ("variants", .obj [("price", .num it.variants.price)])]

/-- JavaScript view of `this.items`. -/
def encodeItems (its : List Item) : JSVal := .arr (its.map encodeItem)

/-- JavaScript view of a shipping entry. -/
def encodeShippingEntry (e : ShippingEntry) : JSVal :=
  .obj [("shipmentMethod", .obj [("rate", .num e.shipmentMethod.rate),
    ("handling", .num e.shipmentMethod.handling)])]

/-- JavaScript view of `this.shipping`. -/
def encodeShippingList (l : List ShippingEntry) : JSVal := .arr (l.map encodeShippingEntry)

/-- Model of `accounting.unformat` on the values the accessors feed to
`toFixed`: numbers pass through, NaN stays NaN; other shapes never reach a
`toFixed` call site of the transform and follow unformat's degrade-to-zero. -/
def accUnformat : JSVal → Option ℚ
  | .num q => some q
  | .nan => none
  | _ => some 0

/-- Model of `accounting.toFixed(v, 2)` applied to a raw JavaScript value;
`Math.round` of NaN prints as "NaN". -/
def accToFixedVal (v : JSVal) : String :=
  match accUnformat v with
  | some q => toFixed2 q
  | none => "NaN"

/-- JavaScript `x || 0` on a possibly-absent numeric field. -/
def jsOrZeroQ (v : Option ℚ) : ℚ :=
  match v with
  | none => 0
  | some t => if t = 0 then 0 else t

/-- JavaScript `x || 0` on an arbitrary value, as in `handling + rate || 0`. -/
def jsOrZeroVal (v : JSVal) : JSVal :=
  if jsTruthy v then v else .num 0

/-- Assignment `o[k] = v` on a JavaScript object viewed as an association
list: the first binding of `k` is replaced in place, a fresh key is
appended. -/
def objInsert {α : Type} : List (String × α) → String → α → List (String × α)
  | [], k, v => [(k, v)]
  | (k2, v2) :: t, k, v =>
    if k2 = k then (k2, v) :: t else (k2, v2) :: objInsert t k v

/-- Falsiness of the object lookup `!acc[key]` when the stored values are
strings. -/
def jsFalsyLookup (l : List (String × String)) (k : String) : Bool :=
  match l.lookup k with
  | none => true
  | some s => s = ""

/-! ### Derived accessors of the order transform -/

/-- Model of `orderCount`. -/
def orderCount (o : Order) : JSVal :=
  getSummary (encodeItems o.items) ["quantity"] none none

/-- Model of `orderShipping`. -/
def orderShipping (o : Order) : String :=
  let rate := getSummary (encodeShippingList o.shipping) ["shipmentMethod", "rate"] none none
  let handling := getSummary (encodeShippingList o.shipping) ["shipmentMethod", "handling"] none none
  let shipping := jsOrZeroVal (jsAdd handling rate)
  accToFixedVal shipping

/-- Model of `orderShippingByShop`. -/
def orderShippingByShop (o : Order) : List (String × ℚ) :=
  o.billing.foldl (fun acc b => objInsert acc b.shopId b.invoice.shipping) []

/-- Model of `orderSubTotal`. -/
def orderSubTotal (o : Order) : String :=
  accToFixedVal (getSummary (encodeItems o.items) ["quantity"] (some ["variants", "price"]) none)

/-- Model of `orderSubTotalByShop`. -/
def orderSubTotalByShop (o : Order) : List (String × String) :=
  o.items.foldl (fun acc item =>
    if jsFalsyLookup acc item.shopId then
      objInsert acc item.shopId
        (accToFixedVal (getSummary (encodeItems o.items) ["quantity"]
          (some ["variants", "price"]) (some item.shopId)))
    else acc) []

/-- Model of `orderTaxes`. -/
def orderTaxes (o : Order) : String :=
  let tax := jsOrZeroQ o.tax
  let subTotal := parseFloat (orderSubTotal o)
  let taxTotal := subTotal * tax
  toFixed2 taxTotal

/-- Model of `orderTaxesByShop`. -/
def orderTaxesByShop (o : Order) : List (String × String) :=
  o.billing.foldl (fun acc b => objInsert acc b.shopId (toFixed2 b.invoice.taxes)) []

/-- Model of `orderDiscounts`. -/
def orderDiscounts (o : Order) : String :=
  toFixed2 (jsOrZeroQ o.discount)

/-- Model of `orderTotal`. -/
def orderTotal (o : Order) : String :=
  let subTotal := parseFloat (orderSubTotal o)
  let shipping := parseFloat (orderShipping o)
  let taxes := parseFloat (orderTaxes o)
  let discount := parseFloat (orderDiscounts o)
  let discountTotal := max 0 (subTotal - discount)
  let total := discountTotal + shipping + taxes
  toFixed2 total

/-! ### Reference sums over the typed order -/

/-- Quantity times price of one line item. -/
def itemTotal (i : Item) : ℚ := i.quantity * i.variants.price

/-- Sum of `quantity * variants.price` over a list of items. -/
def subTotalRaw (its : List Item) : ℚ := (its.map itemTotal).sum

/-- Items of one shop, in order. -/
def shopItems (its : List Item) (s : String) : List Item :=
  its.filter (fun i => i.shopId = s)

/-- Optional shop filter applied by `getSummary`. -/
def sidFilter (sid : Option String) (its : List Item) : List Item :=
  match sid with
  | none => its
  | some s => shopItems its s

/-- Sum of shipment-method rates. -/
def rateSum (l : List ShippingEntry) : ℚ := (l.map (fun e => e.shipmentMethod.rate)).sum

/-- Sum of shipment-method handling fees. -/
def handlingSum (l : List ShippingEntry) : ℚ :=
  (l.map (fun e => e.shipmentMethod.handling)).sum

/-! ### Last-one-wins by-shop maps -/

/-- Billing entry whose values the by-shop maps end up holding: the last
entry of the shop in sequence order. -/
def lastBillingFor (l : List BillingEntry) (s : String) : Option BillingEntry :=
  (l.filter (fun b => b.shopId = s)).getLast?

/-! ### getShopSummary

The summary values assembled per shop. The external `Shops.findOne(shop).name`
lookup is not part of this repository; per the spec it is a point lookup of a
shop record exposing a `name`, with referenced shops guaranteed to exist, so
it is passed in as a total function from shop id to name. -/

structure ShopSummary where
  name : String
  subTotal : Option String
  taxes : Option String
  items : List Item
  quantityTotal : ℚ
  shipping : Option ℚ

/-- Sort key actually used by `_.sortBy(shopObjects, (shopObject) => shopObject.name)`:
each element of `shopObjects` is the single-key wrapper object built as
`\x7b [shop]: summary \x7d`, so its `name` property is undefined unless the
shop id is the literal string "name". -/
def wrapperNameKey (p : String × ShopSummary) : Option ShopSummary :=
  if p.1 = "name" then some p.2 else none

/-- Comparison of two wrapper sort keys, after lodash `compareAscending`:
undefined sorts after any defined value, and pairs of undefined keys (or of
object keys) compare equal, keeping the stable order. -/
def sortKeyLE (a b : String × ShopSummary) : Bool :=
  match wrapperNameKey a, wrapperNameKey b with
  | none, some _ => false
  | _, _ => true

/-- Stable insertion into a sorted prefix, modelling the stable sort of
lodash `sortBy`. -/
def orderedInsertStable (a : String × ShopSummary) :
    List (String × ShopSummary) → List (String × ShopSummary)
  | [] => [a]
  | b :: t => if sortKeyLE a b then a :: b :: t else b :: orderedInsertStable a t

/-- Model of `_.sortBy` with the `shopObject.name` iteratee. -/
def sortByWrapperName (l : List (String × ShopSummary)) : List (String × ShopSummary) :=
  l.foldr orderedInsertStable []

/-- Model of `getShopSummary`, with the external shop-name lookup passed in
as `shops`. -/
def getShopSummary (shops : String → String) (o : Order) : List (String × ShopSummary) :=
  let taxesByShop := orderTaxesByShop o
  let subTotalsByShop := orderSubTotalByShop o
  let shippingByShop := orderShippingByShop o
  let itemsByShop := o.items.foldl (fun acc item =>
    match acc.lookup item.shopId with
    | none => acc ++ [(item.shopId, [item])]
    | some l => objInsert acc item.shopId (l ++ [item])) []
  let shopObjects := itemsByShop.map (fun p =>
    (p.1, { name := shops p.1
            subTotal := subTotalsByShop.lookup p.1
            taxes := taxesByShop.lookup p.1
            items := p.2
            quantityTotal := p.2.foldl (fun qty item => qty + item.quantity) 0
            shipping := shippingByShop.lookup p.1 : ShopSummary }))
  sortByWrapperName shopObjects

/-! ### GridItemControls -/

/-- Product record as read by the control. -/
structure Product where
  productId : String
  isDeleted : Bool

/-- Host UI tree rendered by the control, with the externally defined
presentational pieces as opaque leaves. -/
inductive UINode where
  | translationNode (defaultValue i18nKey : String) : UINode
  | iconButtonNode (icon onIcon status : String) : UINode
  | inputNode (typ nm value id : String) (checked readOnly : Bool) : UINode
  | labelNode (className htmlFor : String) (children : List UINode) : UINode
  | spanNode (className : String) (children : List UINode) : UINode
  | divNode (className : String) (children : List UINode) : UINode

namespace GridItemControls

/-- Model of `renderArchived`. -/
def renderArchived (product : Product) : Option UINode :=
  if product.isDeleted then
    some (.spanNode "badge badge-danger" [.translationNode "Archived" "app.archived"])
  else none

/-- Model of `renderVisibilityButton`; the predicate props are modelled by
the values the zero-argument callbacks return. -/
def renderVisibilityButton (hasChanges : Bool) : Option UINode :=
  if hasChanges then some (.divNode "" [.iconButtonNode "" "" "info"]) else none

/-- Model of `render`. -/
def render (product : Product) (checked hasChanges hasCreateProductPermission : Bool) :
    Option UINode :=
  if hasCreateProductPermission then
    some (.divNode "product-grid-controls"
      ([.labelNode "like-button hidden" ("select-product-" ++ product.productId)
          [.inputNode "checkbox" "selectProduct" product.productId
            ("select-product-" ++ product.productId) checked true]]
        ++ (renderArchived product).toList ++ (renderVisibilityButton hasChanges).toList))
  else none

end GridItemControls

/-- Strings carrying exactly two decimal digits after the final point. -/
def isTwoDecimalString (s : String) : Prop :=
  ∃ cs ds, s.data = cs ++ '.' :: ds ∧ ds.length = 2 ∧ ∀ c ∈ ds, c.isDigit = true

/-! ### Concrete inputs used by the negative results and witnesses -/

/-- Shop-name lookup sending the first-seen shop after the second in name
order. -/
def exShops1 : String → String := fun s => if s = "s1" then "Zeta" else "Alpha"

def exOrder1 : Order :=
  { items := [⟨"s1", 1, ⟨4⟩⟩, ⟨"s2", 2, ⟨3⟩⟩]
    shipping := []
    billing := []
    tax := none
    discount := none }

def exOrder3 : Order :=
  { items := [⟨"A", 2, ⟨5⟩⟩, ⟨"B", 1, ⟨3⟩⟩, ⟨"A", 3, ⟨1⟩⟩]
    shipping := []
    billing := []
    tax := none
    discount := none }

def exOrder5 : Order :=
  { items := [⟨"A", 2, ⟨5⟩⟩]
    shipping := [⟨⟨2, 1⟩⟩]
    billing := []
    tax := some (1 / 10)
    discount := some 100 }

def exOrder7 : Order :=
  { items := [⟨"A", 1, ⟨5⟩⟩]
    shipping := []
    billing := []
    tax := none
    discount := none }

def exOrder9 : Order :=
  { items := []
    shipping := []
    billing := [⟨"A", ⟨3, 5 / 2⟩⟩, ⟨"A", ⟨7, 1005 / 1000⟩⟩]
    tax := none
    discount := none }

def exOrder10 : Order :=
  { items := [⟨"A", 1, ⟨2501 / 250⟩⟩]
    shipping := []
    billing := []
    tax := some (1 / 2)
    discount := none }

/-- Modelled from the spec, for comparison only: the alternative order total
computed from unrounded intermediate sums, which the code does not use. -/
def orderTotalUnrounded (o : Order) : ℚ :=
  max 0 (subTotalRaw o.items - jsOrZeroQ o.discount)
    + (handlingSum o.shipping + rateSum o.shipping)
    + subTotalRaw o.items * jsOrZeroQ o.tax

/-! ### Theorems -/

theorem digitVal_digitChar : ∀ d : Nat, d < 10 → digitVal (Nat.digitChar d) = d := by
  decide

theorem isDigit_digitChar : ∀ d : Nat, d < 10 → (Nat.digitChar d).isDigit = true := by
  decide

theorem parseNat_append (xs : List Char) (c : Char) :
    parseNat (xs ++ [c]) = parseNat xs * 10 + digitVal c := by
  simp [parseNat, List.foldl_append]

theorem parseNat_natDecimalAux : ∀ fuel n, n ≤ fuel → parseNat (natDecimalAux fuel n) = n
  | 0, n, h => by
      have hn : n = 0 := by omega
      subst hn; rfl
  | fuel + 1, 0, _ => rfl
  | fuel + 1, n + 1, h => by
      have hd : (n + 1) / 10 < n + 1 := Nat.div_lt_self (Nat.succ_pos n) (by norm_num)
      have hle : (n + 1) / 10 ≤ fuel := by omega
      rw [natDecimalAux, parseNat_append, parseNat_natDecimalAux fuel _ hle,
        digitVal_digitChar _ (Nat.mod_lt _ (by norm_num))]
      omega

theorem natDecimalAux_digits : ∀ fuel n, ∀ c ∈ natDecimalAux fuel n, c.isDigit = true
  | 0, _ => by simp [natDecimalAux]
  | fuel + 1, 0 => by simp [natDecimalAux]
  | fuel + 1, n + 1 => by
      intro c hc
      simp only [natDecimalAux, List.mem_append, List.mem_singleton] at hc
      rcases hc with hc | hc
      · exact natDecimalAux_digits fuel _ c hc
      · subst hc; exact isDigit_digitChar _ (Nat.mod_lt _ (by norm_num))

theorem natDecimal_digits (n : Nat) : ∀ c ∈ (natDecimal n).data, c.isDigit = true := by
  unfold natDecimal
  split
  · intro c hc
    have : c = '0' := by simpa using hc
    subst this; decide
  · intro c hc
    exact natDecimalAux_digits n n c hc

theorem parseNat_natDecimal (n : Nat) : parseNat (natDecimal n).data = n := by
  unfold natDecimal
  split
  · next h => subst h; decide
  · exact parseNat_natDecimalAux n n le_rfl

theorem twoDigits_digits (r : Nat) (h : r < 100) :
    ∀ c ∈ (twoDigits r).data, c.isDigit = true := by
  intro c hc
  have h1 : r / 10 < 10 := by omega
  have h2 : r % 10 < 10 := Nat.mod_lt _ (by norm_num)
  rcases (by simpa [twoDigits] using hc : c = Nat.digitChar (r / 10) ∨ c = Nat.digitChar (r % 10)) with
    h3 | h3 <;> subst h3
  · exact isDigit_digitChar _ h1
  · exact isDigit_digitChar _ h2

theorem parseNat_twoDigits (r : Nat) (h : r < 100) : parseNat (twoDigits r).data = r := by
  have h1 : r / 10 < 10 := by omega
  have h2 : r % 10 < 10 := Nat.mod_lt _ (by norm_num)
  simp [twoDigits, parseNat, digitVal_digitChar _ h1, digitVal_digitChar _ h2]
  omega

theorem takeWhile_append_all {p : Char → Bool} :
    ∀ (xs ys : List Char), (∀ c ∈ xs, p c = true) →
      (xs ++ ys).takeWhile p = xs ++ ys.takeWhile p
  | [], _, _ => rfl
  | x :: xs, ys, h => by
      have hx : p x = true := h x (List.mem_cons_self x xs)
      simp only [List.cons_append, List.takeWhile_cons, hx, if_true]
      rw [takeWhile_append_all xs ys (fun c hc => h c (List.mem_cons_of_mem _ hc))]

theorem dropWhile_append_all {p : Char → Bool} :
    ∀ (xs ys : List Char), (∀ c ∈ xs, p c = true) →
      (xs ++ ys).dropWhile p = ys.dropWhile p
  | [], _, _ => rfl
  | x :: xs, ys, h => by
      have hx : p x = true := h x (List.mem_cons_self x xs)
      simp only [List.cons_append, List.dropWhile_cons, hx, if_true]
      exact dropWhile_append_all xs ys (fun c hc => h c (List.mem_cons_of_mem _ hc))

theorem takeWhile_all {p : Char → Bool} (xs : List Char) (h : ∀ c ∈ xs, p c = true) :
    xs.takeWhile p = xs := by
  simpa using takeWhile_append_all xs [] h

theorem parseDecChars_format (q r : Nat) (hr : r < 100) :
    parseDecChars ((natDecimal q).data ++ '.' :: (twoDigits r).data)
      = (q : ℚ) + (r : ℚ) / 100 := by
  have hq := natDecimal_digits q
  have htw := twoDigits_digits r hr
  have hdot : ('.').isDigit = false := by decide
  unfold parseDecChars
  rw [takeWhile_append_all _ _ hq, dropWhile_append_all _ _ hq]
  simp only [List.takeWhile_cons, hdot, List.dropWhile_cons, if_neg, Bool.false_eq_true,
    not_false_iff, List.append_nil]
  rw [takeWhile_all _ htw]
  have hl : (twoDigits r).data.length = 2 := by simp [twoDigits]
  rw [parseNat_natDecimal, parseNat_twoDigits r hr, hl]
  norm_num

theorem formatFixed2_data (n : Int) :
    (formatFixed2 n).data
      = (if n < 0 then ['-'] else []) ++ (natDecimal (n.natAbs / 100)).data ++
          '.' :: (twoDigits (n.natAbs % 100)).data := by
  unfold formatFixed2
  split <;> simp [String.data_append]

theorem natDecimal_ne_nil (n : Nat) : (natDecimal n).data ≠ [] := by
  unfold natDecimal
  split
  · simp
  · next h =>
    cases n with
    | zero => exact absurd rfl h
    | succ m =>
      show (natDecimalAux (m + 1) (m + 1)) ≠ []
      simp [natDecimalAux]

theorem parseFloat_formatFixed2 (n : Int) : parseFloat (formatFixed2 n) = (n : ℚ) / 100 := by
  have hr : n.natAbs % 100 < 100 := Nat.mod_lt _ (by norm_num)
  have hmain : parseDecChars ((natDecimal (n.natAbs / 100)).data ++ '.' ::
      (twoDigits (n.natAbs % 100)).data) = (n.natAbs : ℚ) / 100 := by
    rw [parseDecChars_format _ _ hr]
    have h := Nat.div_add_mod n.natAbs 100
    have h2 : ((n.natAbs / 100 : Nat) : ℚ) * 100 + ((n.natAbs % 100 : Nat) : ℚ)
        = (n.natAbs : ℚ) := by
      exact_mod_cast (by linarith [congrArg (fun m : Nat => (m : ℚ)) h] : _)
    field_simp
    linarith
  by_cases hn : n < 0
  · have hdata2 : (formatFixed2 n).data = '-' :: ((natDecimal (n.natAbs / 100)).data ++
        '.' :: (twoDigits (n.natAbs % 100)).data) := by
      rw [formatFixed2_data]; simp [hn]
    have habs : ((n.natAbs : Nat) : ℚ) = -(n : ℚ) := by
      rw [Int.cast_natAbs, abs_of_neg hn, Int.cast_neg]
    unfold parseFloat
    rw [hdata2]
    simp only [List.head?_cons, List.tail_cons, Option.some.injEq, if_pos]
    rw [hmain, habs]
    ring
  · obtain ⟨c, cs, hdata⟩ : ∃ c cs, (natDecimal (n.natAbs / 100)).data = c :: cs := by
      cases hd : (natDecimal (n.natAbs / 100)).data with
      | nil => exact absurd hd (natDecimal_ne_nil _)
      | cons c cs => exact ⟨c, cs, rfl⟩
    have hcdig : c.isDigit = true := by
      apply natDecimal_digits
      rw [hdata]; exact List.mem_cons_self c cs
    have hcne : c ≠ '-' := by
      intro h; rw [h] at hcdig; exact absurd hcdig (by decide)
    have habs : ((n.natAbs : Nat) : ℚ) = (n : ℚ) := by
      rw [Int.cast_natAbs, abs_of_nonneg (le_of_not_lt hn)]
    have hfull : (formatFixed2 n).data = c :: (cs ++
        '.' :: (twoDigits (n.natAbs % 100)).data) := by
      rw [formatFixed2_data]; simp [hn, hdata]
    have hrejoin : c :: (cs ++ '.' :: (twoDigits (n.natAbs % 100)).data)
        = (natDecimal (n.natAbs / 100)).data ++ '.' :: (twoDigits (n.natAbs % 100)).data := by
      rw [hdata]; simp
    unfold parseFloat
    rw [hfull]
    simp only [List.head?_cons, Option.some.injEq]
    rw [if_neg hcne, hrejoin, hmain, habs]

theorem parseFloat_toFixed2 (q : ℚ) :
    parseFloat (toFixed2 q) = (jsRound (q * 100) : ℚ) / 100 :=
  parseFloat_formatFixed2 _

theorem getSummary_not_array (v : JSVal) (prop : List String)
    (prop2 : Option (List String)) (shopId : Option String) (h : isArr v = false) :
    getSummary v prop prop2 shopId = .num 0 := by
  cases v <;> simp_all [getSummary, isArr]

/-! ### Bridge lemmas: getSummary on well-formed data -/

theorem getSummaryFold_num {α : Type} (prop : List String) (prop2 : Option (List String))
    (sid : Option String) (f : α → ℚ) (enc : α → JSVal)
    (hstep : ∀ (q : ℚ) (a : α),
      getSummaryStep prop prop2 sid (.num q) (enc a) = .ok (.num (q + f a))) :
    ∀ (l : List α) (q : ℚ),
      getSummaryFold prop prop2 sid (.num q) (l.map enc) = .ok (.num (q + (l.map f).sum))
  | [], q => by simp [getSummaryFold]
  | a :: l, q => by
      simp only [List.map_cons, getSummaryFold, hstep q a]
      rw [getSummaryFold_num prop prop2 sid f enc hstep l (q + f a)]
      have harith : q + f a + (l.map f).sum = q + (f a :: l.map f).sum := by
        rw [List.sum_cons]; ring
      rw [harith]

theorem getSummaryStep_item (sid : Option String) (sum : ℚ) (i : Item) :
    getSummaryStep ["quantity"] (some ["variants", "price"]) sid (.num sum) (encodeItem i)
      = .ok (.num (sum + subTotalRaw (sidFilter sid [i]))) := by
  cases sid with
  | none =>
    simp [getSummaryStep, getField, encodeItem, getPath2, propGet, jsMul, jsAdd, jsToNumber,
      jsToPrim, jsIsStr, sidFilter, subTotalRaw, itemTotal, List.lookup]
  | some s =>
    by_cases hs : s = i.shopId
    · simp [getSummaryStep, getField, encodeItem, getPath2, propGet, jsMul, jsAdd, jsToNumber,
        jsToPrim, jsIsStr, jsStrictEqStr, hs, sidFilter, shopItems, subTotalRaw, itemTotal,
        List.lookup]
    · have hs2 : ¬ i.shopId = s := fun h => hs h.symm
      simp [getSummaryStep, getField, encodeItem, getPath2, propGet, jsStrictEqStr, hs, hs2,
        sidFilter, shopItems, subTotalRaw, List.lookup, List.filter]

theorem sum_sidFilter (sid : Option String) :
    ∀ its : List Item,
      (its.map (fun i => subTotalRaw (sidFilter sid [i]))).sum = subTotalRaw (sidFilter sid its)
  | [] => by cases sid <;> simp [sidFilter, shopItems, subTotalRaw]
  | i :: its => by
      have ih := sum_sidFilter sid its
      have hfilter : subTotalRaw (sidFilter sid (i :: its))
          = subTotalRaw (sidFilter sid [i]) + subTotalRaw (sidFilter sid its) := by
        cases sid with
        | none => simp [sidFilter, subTotalRaw]
        | some s =>
          by_cases hs : i.shopId = s <;>
            simp [sidFilter, shopItems, subTotalRaw, List.filter, hs]
      simp only [List.map_cons, List.sum_cons, ih, hfilter]

theorem getSummary_items (its : List Item) (sid : Option String) :
    getSummary (encodeItems its) ["quantity"] (some ["variants", "price"]) sid
      = .num (subTotalRaw (sidFilter sid its)) := by
  have h := getSummaryFold_num ["quantity"] (some ["variants", "price"]) sid
    (fun i => subTotalRaw (sidFilter sid [i])) encodeItem (getSummaryStep_item sid) its 0
  simp [getSummary, encodeItems, h, sum_sidFilter sid its]

theorem getSummaryStep_rate (sum : ℚ) (e : ShippingEntry) :
    getSummaryStep ["shipmentMethod", "rate"] none none (.num sum) (encodeShippingEntry e)
      = .ok (.num (sum + e.shipmentMethod.rate)) := by
  simp [getSummaryStep, getPath2, propGet, getField, encodeShippingEntry, List.lookup,
    jsAdd, jsToNumber, jsToPrim, jsIsStr]

theorem getSummaryStep_handling (sum : ℚ) (e : ShippingEntry) :
    getSummaryStep ["shipmentMethod", "handling"] none none (.num sum) (encodeShippingEntry e)
      = .ok (.num (sum + e.shipmentMethod.handling)) := by
  simp [getSummaryStep, getPath2, propGet, getField, encodeShippingEntry, List.lookup,
    jsAdd, jsToNumber, jsToPrim, jsIsStr]

theorem getSummary_rate (l : List ShippingEntry) :
    getSummary (encodeShippingList l) ["shipmentMethod", "rate"] none none
      = .num (rateSum l) := by
  have h := getSummaryFold_num ["shipmentMethod", "rate"] none none
    (fun e => e.shipmentMethod.rate) encodeShippingEntry getSummaryStep_rate l 0
  simp [getSummary, encodeShippingList, h, rateSum]

theorem getSummary_handling (l : List ShippingEntry) :
    getSummary (encodeShippingList l) ["shipmentMethod", "handling"] none none
      = .num (handlingSum l) := by
  have h := getSummaryFold_num ["shipmentMethod", "handling"] none none
    (fun e => e.shipmentMethod.handling) encodeShippingEntry getSummaryStep_handling l 0
  simp [getSummary, encodeShippingList, h, handlingSum]

/-! ### Accessor values on the typed order -/

theorem orderSubTotal_eq (o : Order) : orderSubTotal o = toFixed2 (subTotalRaw o.items) := by
  unfold orderSubTotal
  rw [getSummary_items o.items none]
  rfl

theorem orderShipping_eq (o : Order) :
    orderShipping o = toFixed2 (handlingSum o.shipping + rateSum o.shipping) := by
  have hadd : jsAdd (.num (handlingSum o.shipping)) (.num (rateSum o.shipping))
      = .num (handlingSum o.shipping + rateSum o.shipping) := by
    simp [jsAdd, jsToNumber, jsToPrim, jsIsStr]
  by_cases hz : handlingSum o.shipping + rateSum o.shipping = 0
  · simp [orderShipping, getSummary_rate, getSummary_handling, hadd, jsOrZeroVal, jsTruthy,
      hz, accToFixedVal, accUnformat]
  · simp [orderShipping, getSummary_rate, getSummary_handling, hadd, jsOrZeroVal, jsTruthy,
      hz, accToFixedVal, accUnformat]

theorem orderTaxes_eq (o : Order) :
    orderTaxes o = toFixed2 (parseFloat (orderSubTotal o) * jsOrZeroQ o.tax) := rfl

theorem orderDiscounts_eq (o : Order) :
    orderDiscounts o = toFixed2 (jsOrZeroQ o.discount) := rfl

theorem orderTotal_eq (o : Order) :
    orderTotal o = toFixed2 (max 0 (parseFloat (orderSubTotal o) - parseFloat (orderDiscounts o))
      + parseFloat (orderShipping o) + parseFloat (orderTaxes o)) := rfl

/-! ### Object-assignment lemmas -/

theorem lookup_objInsert {α : Type} :
    ∀ (l : List (String × α)) (k : String) (v : α) (s : String),
      (objInsert l k v).lookup s = if s = k then some v else l.lookup s
  | [], k, v, s => by
      by_cases hs : s = k
      · subst hs; simp [objInsert, List.lookup]
      · simp [objInsert, List.lookup, hs, beq_eq_false_iff_ne.mpr hs]
  | (k2, v2) :: t, k, v, s => by
      by_cases h1 : k2 = k
      · subst h1
        simp only [objInsert, if_pos rfl]
        by_cases h2 : s = k2
        · subst h2; simp [List.lookup]
        · simp [List.lookup, h2, beq_eq_false_iff_ne.mpr h2]
      · simp only [objInsert, if_neg h1]
        by_cases h2 : s = k2
        · subst h2
          simp [List.lookup, h1]
        · simp [List.lookup, h2, beq_eq_false_iff_ne.mpr h2, lookup_objInsert t k v s]

theorem keys_objInsert {α : Type} :
    ∀ (l : List (String × α)) (k : String) (v : α),
      (objInsert l k v).map Prod.fst
        = if k ∈ l.map Prod.fst then l.map Prod.fst else l.map Prod.fst ++ [k]
  | [], k, v => by simp [objInsert]
  | (k2, v2) :: t, k, v => by
      by_cases h1 : k2 = k
      · subst h1
        simp [objInsert]
      · simp only [objInsert, if_neg h1, List.map_cons]
        rw [keys_objInsert t k v]
        have h1s : ¬ k = k2 := fun h => h1 h.symm
        by_cases h2 : k ∈ t.map Prod.fst <;> simp [h2, h1s]

theorem nodup_keys_objInsert {α : Type} (l : List (String × α)) (k : String) (v : α)
    (h : (l.map Prod.fst).Nodup) : ((objInsert l k v).map Prod.fst).Nodup := by
  rw [keys_objInsert]
  split
  · exact h
  · next hk =>
    rw [List.nodup_append]
    refine ⟨h, List.nodup_singleton k, ?_⟩
    intro x hx hmem
    rw [List.mem_singleton] at hmem
    subst hmem
    exact hk hx

theorem lookup_eq_none_iff {α : Type} :
    ∀ (l : List (String × α)) (s : String), l.lookup s = none ↔ s ∉ l.map Prod.fst
  | [], s => by simp [List.lookup]
  | (k, v) :: t, s => by
      by_cases h : s = k
      · subst h; simp [List.lookup]
      · simp [List.lookup, h, beq_eq_false_iff_ne.mpr h, lookup_eq_none_iff t s]

/-! ### orderSubTotalByShop -/

theorem subTotalByShop_fold {v : String → String} (hv : ∀ s, v s ≠ "") :
    ∀ (its : List Item) (acc : List (String × String)),
      (acc.map Prod.fst).Nodup →
      (∀ s, acc.lookup s = none ∨ acc.lookup s = some (v s)) →
      ((((its.foldl (fun a i =>
            if jsFalsyLookup a i.shopId then objInsert a i.shopId (v i.shopId) else a) acc)).map
          Prod.fst).Nodup
        ∧ (∀ s, (its.foldl (fun a i =>
            if jsFalsyLookup a i.shopId then objInsert a i.shopId (v i.shopId) else a) acc).lookup s
              = none
            ∨ (its.foldl (fun a i =>
            if jsFalsyLookup a i.shopId then objInsert a i.shopId (v i.shopId) else a) acc).lookup s
              = some (v s))
        ∧ (∀ s, s ∈ ((its.foldl (fun a i =>
            if jsFalsyLookup a i.shopId then objInsert a i.shopId (v i.shopId) else a) acc)).map
              Prod.fst
            ↔ s ∈ acc.map Prod.fst ∨ s ∈ its.map Item.shopId))
  | [], acc, hnd, hl => by
      refine ⟨hnd, hl, ?_⟩
      simp
  | i :: its, acc, hnd, hl => by
      rcases hl i.shopId with hnone | hsome
      · have hfal : jsFalsyLookup acc i.shopId = true := by
          simp [jsFalsyLookup, hnone]
        have hnd2 : ((objInsert acc i.shopId (v i.shopId)).map Prod.fst).Nodup :=
          nodup_keys_objInsert acc i.shopId _ hnd
        have hl2 : ∀ s, (objInsert acc i.shopId (v i.shopId)).lookup s = none
            ∨ (objInsert acc i.shopId (v i.shopId)).lookup s = some (v s) := by
          intro s
          rw [lookup_objInsert]
          by_cases hs : s = i.shopId
          · right; rw [if_pos hs, hs]
          · rw [if_neg hs]; exact hl s
        have ih := subTotalByShop_fold hv its (objInsert acc i.shopId (v i.shopId)) hnd2 hl2
        simp only [List.foldl_cons, hfal, if_pos]
        refine ⟨ih.1, ih.2.1, ?_⟩
        intro s
        rw [ih.2.2 s, keys_objInsert]
        have hnotmem : i.shopId ∉ acc.map Prod.fst := (lookup_eq_none_iff acc i.shopId).mp hnone
        simp only [if_neg hnotmem, List.mem_append, List.mem_singleton, List.map_cons,
          List.mem_cons]
        tauto
      · have hfal : jsFalsyLookup acc i.shopId = false := by
          simp [jsFalsyLookup, hsome, hv i.shopId]
        have hmem : i.shopId ∈ acc.map Prod.fst := by
          by_contra hno
          rw [← lookup_eq_none_iff] at hno
          rw [hno] at hsome
          exact Option.noConfusion hsome
        have ih := subTotalByShop_fold hv its acc hnd hl
        simp only [List.foldl_cons, hfal, if_neg, Bool.false_eq_true, not_false_iff]
        refine ⟨ih.1, ih.2.1, ?_⟩
        intro s
        rw [ih.2.2 s]
        simp only [List.map_cons, List.mem_cons]
        constructor
        · rintro (h | h)
          · exact Or.inl h
          · exact Or.inr (Or.inr h)
        · rintro (h | h | h)
          · exact Or.inl h
          · exact h ▸ Or.inl hmem
          · exact Or.inr h

theorem orderSubTotalByShop_value (o : Order) (s : String) :
    accToFixedVal (getSummary (encodeItems o.items) ["quantity"] (some ["variants", "price"])
        (some s))
      = toFixed2 (subTotalRaw (shopItems o.items s)) := by
  rw [getSummary_items o.items (some s)]
  rfl

theorem formatFixed2_ne_empty (n : Int) : formatFixed2 n ≠ "" := by
  intro h
  have h2 := congrArg String.data h
  rw [formatFixed2_data] at h2
  have h3 : ("" : String).data = [] := rfl
  rw [h3] at h2
  simp at h2

theorem toFixed2_ne_empty (q : ℚ) : toFixed2 q ≠ "" := formatFixed2_ne_empty _

theorem orderSubTotalByShop_spec (o : Order) :
    ((orderSubTotalByShop o).map Prod.fst).Nodup
    ∧ (∀ s, s ∈ (orderSubTotalByShop o).map Prod.fst ↔ s ∈ o.items.map Item.shopId)
    ∧ (∀ s ∈ o.items.map Item.shopId,
        (orderSubTotalByShop o).lookup s
          = some (toFixed2 (subTotalRaw (shopItems o.items s)))) := by
  have hv : ∀ s, accToFixedVal (getSummary (encodeItems o.items) ["quantity"]
      (some ["variants", "price"]) (some s)) ≠ "" := by
    intro s
    rw [orderSubTotalByShop_value]
    exact toFixed2_ne_empty _
  have h := subTotalByShop_fold hv o.items [] (by simp) (by intro s; left; simp [List.lookup])
  have hres : orderSubTotalByShop o = o.items.foldl (fun a i =>
      if jsFalsyLookup a i.shopId then
        objInsert a i.shopId (accToFixedVal (getSummary (encodeItems o.items) ["quantity"]
          (some ["variants", "price"]) (some i.shopId)))
      else a) [] := rfl
  refine ⟨by rw [hres]; exact h.1, ?_, ?_⟩
  · intro s
    rw [hres, h.2.2 s]
    simp
  · intro s hs
    have hmem : s ∈ (orderSubTotalByShop o).map Prod.fst := by
      rw [hres, h.2.2 s]; simp [hs]
    rcases (hres ▸ h.2.1 s) with hnone | hsome
    · exact absurd hmem ((lookup_eq_none_iff _ s).mp hnone)
    · rw [hsome, orderSubTotalByShop_value]

theorem cons_getLast?_ne_none {α : Type} (c : α) (r : List α) : (c :: r).getLast? ≠ none := by
  induction r generalizing c with
  | nil => simp [List.getLast?]
  | cons d t ih => rw [List.getLast?_cons_cons]; exact ih d

theorem foldl_objInsert_lookup {α : Type} (f : BillingEntry → α) :
    ∀ (l : List BillingEntry) (acc : List (String × α)) (s : String),
      (l.foldl (fun a b => objInsert a b.shopId (f b)) acc).lookup s
        = match (l.filter (fun b => b.shopId = s)).getLast? with
          | some b => some (f b)
          | none => acc.lookup s
  | [], acc, s => by simp [List.filter]
  | b :: t, acc, s => by
      rw [List.foldl_cons, foldl_objInsert_lookup f t (objInsert acc b.shopId (f b)) s]
      by_cases hb : b.shopId = s
      · have hfil : (b :: t).filter (fun b => b.shopId = s)
            = b :: t.filter (fun b => b.shopId = s) := by
          simp [List.filter, hb]
        rw [hfil]
        cases hft : t.filter (fun b => b.shopId = s) with
        | nil =>
          simp only [List.getLast?_singleton, List.getLast?_nil]
          rw [lookup_objInsert, if_pos hb.symm]
        | cons c r =>
          rw [List.getLast?_cons_cons]
          cases hcr : (c :: r).getLast? with
          | none => exact absurd hcr (cons_getLast?_ne_none c r)
          | some d => rfl
      · have hfil : (b :: t).filter (fun b => b.shopId = s)
            = t.filter (fun b => b.shopId = s) := by
          simp [List.filter, hb]
        rw [hfil]
        have hsb : ¬ s = b.shopId := fun h => hb h.symm
        cases hft : t.filter (fun b => b.shopId = s) with
        | nil =>
          simp only [List.getLast?_nil]
          rw [lookup_objInsert, if_neg hsb]
        | cons c r => rfl

theorem foldl_objInsert_nodup {α : Type} (f : BillingEntry → α) :
    ∀ (l : List BillingEntry) (acc : List (String × α)),
      (acc.map Prod.fst).Nodup →
      ((l.foldl (fun a b => objInsert a b.shopId (f b)) acc).map Prod.fst).Nodup
  | [], acc, h => h
  | b :: t, acc, h => by
      rw [List.foldl_cons]
      exact foldl_objInsert_nodup f t _ (nodup_keys_objInsert acc b.shopId (f b) h)

theorem orderShippingByShop_spec (o : Order) (s : String) :
    ((orderShippingByShop o).map Prod.fst).Nodup
    ∧ (orderShippingByShop o).lookup s
        = (lastBillingFor o.billing s).map (fun b => b.invoice.shipping) := by
  constructor
  · exact foldl_objInsert_nodup _ o.billing [] (by simp)
  · rw [show orderShippingByShop o
        = o.billing.foldl (fun a b => objInsert a b.shopId b.invoice.shipping) [] from rfl,
      foldl_objInsert_lookup (fun b => b.invoice.shipping) o.billing [] s]
    unfold lastBillingFor
    cases (o.billing.filter (fun b => b.shopId = s)).getLast? <;> simp [List.lookup]

theorem orderTaxesByShop_spec (o : Order) (s : String) :
    ((orderTaxesByShop o).map Prod.fst).Nodup
    ∧ (orderTaxesByShop o).lookup s
        = (lastBillingFor o.billing s).map (fun b => toFixed2 b.invoice.taxes) := by
  constructor
  · exact foldl_objInsert_nodup _ o.billing [] (by simp)
  · rw [show orderTaxesByShop o
        = o.billing.foldl (fun a b => objInsert a b.shopId (toFixed2 b.invoice.taxes)) [] from
        rfl,
      foldl_objInsert_lookup (fun b => toFixed2 b.invoice.taxes) o.billing [] s]
    unfold lastBillingFor
    cases (o.billing.filter (fun b => b.shopId = s)).getLast? <;> simp [List.lookup]

/-! ### Evaluation helpers -/

theorem jsRound_eq (q : ℚ) (n : Int) (h1 : (n : ℚ) ≤ q + 1 / 2) (h2 : q + 1 / 2 < (n : ℚ) + 1) :
    jsRound q = n := by
  rw [jsRound]
  exact Int.floor_eq_iff.mpr ⟨h1, h2⟩

theorem toFixed2_eq (q : ℚ) (n : Int) (h1 : (n : ℚ) ≤ q * 100 + 1 / 2)
    (h2 : q * 100 + 1 / 2 < (n : ℚ) + 1) : toFixed2 q = formatFixed2 n := by
  rw [toFixed2, jsRound_eq (q * 100) n h1 h2]

theorem parseFloat_toFixed2_nonneg (q : ℚ) (h : 0 ≤ q) : 0 ≤ parseFloat (toFixed2 q) := by
  rw [parseFloat_toFixed2]
  have h1 : (0 : Int) ≤ jsRound (q * 100) := by
    rw [jsRound]
    rw [Int.le_floor]
    have : (0 : ℚ) ≤ q * 100 := mul_nonneg h (by norm_num)
    push_cast
    linarith
  have h2 : (0 : ℚ) ≤ (jsRound (q * 100) : ℚ) := by exact_mod_cast h1
  positivity

theorem formatFixed2_isTwoDecimal (n : Int) : isTwoDecimalString (formatFixed2 n) := by
  refine ⟨(if n < 0 then ['-'] else []) ++ (natDecimal (n.natAbs / 100)).data,
    (twoDigits (n.natAbs % 100)).data, ?_, by simp [twoDigits],
    twoDigits_digits _ (Nat.mod_lt _ (by norm_num))⟩
  rw [formatFixed2_data]

/-! ### Claims -/

/-- C1: the claim says the list returned by getShopSummary is sorted in
ascending order of the looked-up shop name regardless of item order. It is
not: the sortBy iteratee reads `name` off the single-key wrapper objects,
where it is undefined, so the stable sort keeps first-seen item order. On
an order whose first-seen shop has the later name, the output names come
out as ["Zeta", "Alpha"], which is not ascending. -/
theorem c1_getShopSummary_not_sorted_by_name :
    (getShopSummary exShops1 exOrder1).map (fun p => p.2.name) = ["Zeta", "Alpha"]
    ∧ ¬ List.Sorted (fun a b : String => a ≤ b)
        ((getShopSummary exShops1 exOrder1).map (fun p => p.2.name)) := by
  have hmap : (getShopSummary exShops1 exOrder1).map (fun p => p.2.name)
      = ["Zeta", "Alpha"] := by
    simp only [getShopSummary, exOrder1, exShops1, List.foldl_cons, List.foldl_nil,
      List.lookup, objInsert, sortByWrapperName, List.foldr_cons, List.foldr_nil,
      orderedInsertStable, sortKeyLE, wrapperNameKey, List.map_cons, List.map_nil]
    simp [orderedInsertStable, sortKeyLE, wrapperNameKey]
  refine ⟨hmap, ?_⟩
  rw [hmap]
  intro hsort
  have hle : ("Zeta" : String) ≤ "Alpha" :=
    (List.sorted_cons.mp hsort).1 "Alpha" (by simp)
  have hnle : ¬ ("Zeta" : String) ≤ "Alpha" := by
    rw [String.le_iff_toList_le]
    decide
  exact hnle hle

/-- C2 as stated is false: getSummary does return the number 0 whenever the
items value is not an array or the traversal throws, but an item whose
nested leaf field is merely absent multiplies quantity with undefined and
the sum becomes NaN, not 0. -/
theorem c2_getSummary_leaf_missing_nan :
    getSummary (.arr [.obj [("quantity", .num 2), ("variants", .obj [])]])
      ["quantity"] (some ["variants", "price"]) none ≠ JSVal.num 0 := by
  have h : getSummary (.arr [.obj [("quantity", .num 2), ("variants", .obj [])]])
      ["quantity"] (some ["variants", "price"]) none = .nan := rfl
  rw [h]
  intro hc
  exact JSVal.noConfusion hc

/-- C2 amended: getSummary never raises; it returns the number 0 whenever
items is not an array, and whenever the traversal throws a TypeError (the
first segment of a nested path absent, so a property of undefined is
read); but an absent leaf field propagates NaN into the sum instead of
yielding 0. -/
theorem c2_getSummary_soft_fail :
    (∀ (v : JSVal) (prop : List String) (prop2 : Option (List String))
        (shopId : Option String), isArr v = false → getSummary v prop prop2 shopId = .num 0)
    ∧ getSummary (.arr [.obj [("quantity", .num 2)]]) ["quantity"]
        (some ["variants", "price"]) none = .num 0
    ∧ getSummary (.arr [.obj [("quantity", .num 2), ("variants", .obj [])]])
        ["quantity"] (some ["variants", "price"]) none = .nan :=
  ⟨getSummary_not_array, rfl, rfl⟩

/-- Witness for C2 amended: the number 0 comes back when items is undefined. -/
theorem c2_getSummary_soft_fail_witness :
    getSummary .undefined ["quantity"] none none = .num 0 :=
  c2_getSummary_soft_fail.1 .undefined ["quantity"] none none rfl

/-- C3: orderSubTotalByShop holds exactly one entry per distinct shopId of
the items (no duplicate keys, and a key for precisely the shopIds that
occur), and each entry is the 2-decimal formatting of the sum of
quantity times variants.price over the full item list filtered to that
shop, so non-contiguous duplicates contribute. -/
theorem c3_orderSubTotalByShop_entries (o : Order) :
    ((orderSubTotalByShop o).map Prod.fst).Nodup
    ∧ (∀ s, s ∈ (orderSubTotalByShop o).map Prod.fst ↔ s ∈ o.items.map Item.shopId)
    ∧ ∀ s ∈ o.items.map Item.shopId,
        (orderSubTotalByShop o).lookup s
          = some (toFixed2 (subTotalRaw (shopItems o.items s))) :=
  orderSubTotalByShop_spec o

/-- Witness for C3 on an order whose items for shop "A" are non-contiguous:
the single "A" entry is 2*5 + 3*1 = 13 formatted. -/
theorem c3_orderSubTotalByShop_entries_witness :
    (orderSubTotalByShop exOrder3).lookup "A" = some "13.00" := by
  have h := (c3_orderSubTotalByShop_entries exOrder3).2.2 "A" (by simp [exOrder3])
  rw [h]
  have h13 : subTotalRaw (shopItems exOrder3.items "A") = 13 := by
    simp [exOrder3, shopItems, subTotalRaw, itemTotal, List.filter]
    norm_num
  rw [h13, toFixed2_eq 13 1300 (by norm_num) (by norm_num)]
  rfl

/-- C4: orderTotal is the 2-decimal formatting of
max(0, subTotal - discount) + shipping + taxes computed from the values of
the corresponding accessors parsed back to numbers. -/
theorem c4_orderTotal_formula (o : Order) :
    orderTotal o
      = toFixed2 (max 0 (parseFloat (orderSubTotal o) - parseFloat (orderDiscounts o))
          + parseFloat (orderShipping o) + parseFloat (orderTaxes o)) := rfl

/-- C5: when the shipping, taxes and subtotal accessor values are
non-negative, orderTotal is non-negative whatever the discount is: a
discount above the subtotal floors the discounted contribution at 0. -/
theorem c5_orderTotal_nonneg (o : Order)
    (hship : 0 ≤ parseFloat (orderShipping o))
    (htax : 0 ≤ parseFloat (orderTaxes o))
    (hsub : 0 ≤ parseFloat (orderSubTotal o)) :
    0 ≤ parseFloat (orderTotal o) := by
  rw [orderTotal_eq]
  apply parseFloat_toFixed2_nonneg
  have hmax : (0 : ℚ) ≤ max 0 (parseFloat (orderSubTotal o) - parseFloat (orderDiscounts o)) :=
    le_max_left 0 _
  linarith

/-- Witness for C5 on an order whose discount 100 exceeds the subtotal 10. -/
theorem c5_orderTotal_nonneg_witness : 0 ≤ parseFloat (orderTotal exOrder5) := by
  have hship : 0 ≤ parseFloat (orderShipping exOrder5) := by
    rw [orderShipping_eq]
    apply parseFloat_toFixed2_nonneg
    simp [exOrder5, handlingSum, rateSum]
    norm_num
  have hsub0 : subTotalRaw exOrder5.items = 10 := by
    simp [exOrder5, subTotalRaw, itemTotal]
    norm_num
  have hsub : 0 ≤ parseFloat (orderSubTotal exOrder5) := by
    rw [orderSubTotal_eq, hsub0]
    apply parseFloat_toFixed2_nonneg
    norm_num
  have hsubval : parseFloat (orderSubTotal exOrder5) = 10 := by
    rw [orderSubTotal_eq, hsub0, toFixed2_eq 10 1000 (by norm_num) (by norm_num),
      parseFloat_formatFixed2]
    norm_num
  have htax : 0 ≤ parseFloat (orderTaxes exOrder5) := by
    rw [orderTaxes_eq, hsubval]
    apply parseFloat_toFixed2_nonneg
    have : jsOrZeroQ exOrder5.tax = 1 / 10 := by norm_num [exOrder5, jsOrZeroQ]
    rw [this]
    norm_num
  exact c5_orderTotal_nonneg exOrder5 hship htax hsub

/-- C6: the five monetary accessors print exactly two decimal digits after
the decimal point, and the printed value is the half-up rounding (floor of
the scaled value plus one half) of the underlying amount, shown here for
the subtotal against the raw item sum. -/
theorem c6_two_decimal_rounding (o : Order) :
    isTwoDecimalString (orderShipping o)
    ∧ isTwoDecimalString (orderSubTotal o)
    ∧ isTwoDecimalString (orderTaxes o)
    ∧ isTwoDecimalString (orderDiscounts o)
    ∧ isTwoDecimalString (orderTotal o)
    ∧ parseFloat (orderSubTotal o)
        = ((⌊subTotalRaw o.items * 100 + 1 / 2⌋ : Int) : ℚ) / 100 := by
  refine ⟨?_, ?_, ?_, ?_, ?_, ?_⟩
  · rw [orderShipping_eq, toFixed2]; exact formatFixed2_isTwoDecimal _
  · rw [orderSubTotal_eq, toFixed2]; exact formatFixed2_isTwoDecimal _
  · rw [orderTaxes_eq, toFixed2]; exact formatFixed2_isTwoDecimal _
  · rw [orderDiscounts_eq, toFixed2]; exact formatFixed2_isTwoDecimal _
  · rw [orderTotal_eq, toFixed2]; exact formatFixed2_isTwoDecimal _
  · rw [orderSubTotal_eq, parseFloat_toFixed2, jsRound]

/-- C7: orderTaxes is the 2-decimal formatting of the parsed subtotal
accessor times the effective tax rate, which defaults to 0 when the tax
field is absent; with no tax field the result is "0.00". -/
theorem c7_orderTaxes_formula (o : Order) :
    orderTaxes o = toFixed2 (parseFloat (orderSubTotal o) * o.tax.getD 0)
    ∧ (o.tax = none → orderTaxes o = "0.00") := by
  have heff : jsOrZeroQ o.tax = o.tax.getD 0 := by
    cases o.tax with
    | none => rfl
    | some t => by_cases ht : t = 0 <;> simp [jsOrZeroQ, ht]
  constructor
  · rw [orderTaxes_eq, heff]
  · intro h
    rw [orderTaxes_eq, h]
    have hz : parseFloat (orderSubTotal o) * jsOrZeroQ none = 0 := by
      simp [jsOrZeroQ]
    rw [hz, toFixed2_eq 0 0 (by norm_num) (by norm_num)]
    rfl

/-- Witness for C7 on an order with no tax field. -/
theorem c7_orderTaxes_formula_witness : orderTaxes exOrder7 = "0.00" :=
  (c7_orderTaxes_formula exOrder7).2 rfl

/-- C8: without the create-product permission the control renders nothing,
whatever the product and the other two predicates are. -/
theorem c8_render_nothing_without_permission (p : Product) (checked hasChanges : Bool) :
    GridItemControls.render p checked hasChanges false = none := rfl

/-- C9 as stated is false for orderTaxesByShop: on a billing list with two
entries for shop "A" whose last entry carries invoice.taxes = 1.005, the
map holds the formatted string "1.01", which does not denote 1.005, so the
entry does not hold the invoice.taxes value of the last entry. -/
theorem c9_taxes_formatted_not_raw :
    lastBillingFor exOrder9.billing "A" = some ⟨"A", ⟨7, 1005 / 1000⟩⟩
    ∧ (orderTaxesByShop exOrder9).lookup "A" = some "1.01"
    ∧ parseFloat "1.01" ≠ (1005 / 1000 : ℚ) := by
  have hlast : lastBillingFor exOrder9.billing "A" = some ⟨"A", ⟨7, 1005 / 1000⟩⟩ := rfl
  refine ⟨hlast, ?_, ?_⟩
  · rw [(orderTaxesByShop_spec exOrder9 "A").2, hlast]
    have h2 : toFixed2 (1005 / 1000) = formatFixed2 101 :=
      toFixed2_eq (1005 / 1000) 101 (by norm_num) (by norm_num)
    show some (toFixed2 (1005 / 1000)) = some "1.01"
    rw [h2]
    rfl
  · have h101 : ("1.01" : String) = formatFixed2 101 := rfl
    rw [h101, parseFloat_formatFixed2]
    norm_num

/-- C9 amended: orderShippingByShop and orderTaxesByShop hold exactly one
entry per shopId; the shipping entry is the raw invoice.shipping of the
last billing entry of that shop in sequence order, and the taxes entry is
the 2-decimal formatting of the last entry's invoice.taxes; earlier
entries for the same shop are silently overwritten. -/
theorem c9_by_shop_last_wins (o : Order) (s : String) :
    ((orderShippingByShop o).map Prod.fst).Nodup
    ∧ ((orderTaxesByShop o).map Prod.fst).Nodup
    ∧ (orderShippingByShop o).lookup s
        = (lastBillingFor o.billing s).map (fun b => b.invoice.shipping)
    ∧ (orderTaxesByShop o).lookup s
        = (lastBillingFor o.billing s).map (fun b => toFixed2 b.invoice.taxes) :=
  ⟨(orderShippingByShop_spec o s).1, (orderTaxesByShop_spec o s).1,
    (orderShippingByShop_spec o s).2, (orderTaxesByShop_spec o s).2⟩

/-- C10: orderTotal is assembled from the already-rounded accessor values
(the parsed total equals the half-up rounding of the sum of the parsed,
already 2-decimal, accessor results), and that differs from rounding the
total of the unrounded sums: on a 1-item order with price 10.004 and tax
rate 0.5 the code prints "15.00" while the unrounded total 15.006 would
print "15.01". -/
theorem c10_rounding_composition :
    (∀ o : Order,
      parseFloat (orderTotal o)
        = ((jsRound ((max 0 (parseFloat (orderSubTotal o) - parseFloat (orderDiscounts o))
            + parseFloat (orderShipping o) + parseFloat (orderTaxes o)) * 100)) : ℚ) / 100)
    ∧ orderTotal exOrder10 ≠ toFixed2 (orderTotalUnrounded exOrder10) := by
  constructor
  · intro o
    rw [orderTotal_eq, parseFloat_toFixed2]
  · have hsub0 : subTotalRaw exOrder10.items = 2501 / 250 := by
      simp [exOrder10, subTotalRaw, itemTotal]
    have hsub : orderSubTotal exOrder10 = formatFixed2 1000 := by
      rw [orderSubTotal_eq, hsub0, toFixed2_eq (2501 / 250) 1000 (by norm_num) (by norm_num)]
    have hpfsub : parseFloat (orderSubTotal exOrder10) = 10 := by
      rw [hsub, parseFloat_formatFixed2]
      norm_num
    have hship : orderShipping exOrder10 = formatFixed2 0 := by
      rw [orderShipping_eq]
      have h : handlingSum exOrder10.shipping + rateSum exOrder10.shipping = 0 := by
        simp [exOrder10, handlingSum, rateSum]
      rw [h, toFixed2_eq 0 0 (by norm_num) (by norm_num)]
    have hpfship : parseFloat (orderShipping exOrder10) = 0 := by
      rw [hship, parseFloat_formatFixed2]
      norm_num
    have hdisc : orderDiscounts exOrder10 = formatFixed2 0 := by
      rw [orderDiscounts_eq]
      have h : jsOrZeroQ exOrder10.discount = 0 := rfl
      rw [h, toFixed2_eq 0 0 (by norm_num) (by norm_num)]
    have hpfdisc : parseFloat (orderDiscounts exOrder10) = 0 := by
      rw [hdisc, parseFloat_formatFixed2]
      norm_num
    have heff : jsOrZeroQ exOrder10.tax = 1 / 2 := by
      norm_num [exOrder10, jsOrZeroQ]
    have htaxes : orderTaxes exOrder10 = formatFixed2 500 := by
      rw [orderTaxes_eq, hpfsub, heff,
        show (10 : ℚ) * (1 / 2) = 5 by norm_num,
        toFixed2_eq 5 500 (by norm_num) (by norm_num)]
    have hpftaxes : parseFloat (orderTaxes exOrder10) = 5 := by
      rw [htaxes, parseFloat_formatFixed2]
      norm_num
    have hmax : max (0 : ℚ) (10 - 0) = 10 := by
      rw [show (10 : ℚ) - 0 = 10 by ring]
      exact max_eq_right (by norm_num)
    have htot : orderTotal exOrder10 = formatFixed2 1500 := by
      rw [orderTotal_eq, hpfsub, hpfship, hpfdisc, hpftaxes, hmax,
        show (10 : ℚ) + 0 + 5 = 15 by norm_num,
        toFixed2_eq 15 1500 (by norm_num) (by norm_num)]
    have hunr : orderTotalUnrounded exOrder10 = 7503 / 500 := by
      rw [orderTotalUnrounded, hsub0, heff]
      simp [exOrder10, handlingSum, rateSum, jsOrZeroQ]
      norm_num
    rw [htot, hunr, toFixed2_eq (7503 / 500) 1501 (by norm_num) (by norm_num)]
    decide

end Reaction
